import Mathlib

/-
Verification of the Gaussian/Student-t potential algebra
(pyro/ops/gaussian_sqrt.py, pyro/ops/studentt.py) and of the HMC kernel
(pyro/infer/mcmc/hmc.py), as a shallow embedding over exact rationals.

Tensors are modelled unbatched: vectors are lists of rationals, matrices
are lists of rows.  Python exceptions (AssertionError from shape asserts,
NotImplementedError, NameError, ZeroDivisionError) are modelled with
Except.  IEEE special values (NaN, +Inf, -Inf) that drive the HMC energy
bookkeeping are modelled with an explicit four-case type Flt; the
transcendental exp on finite arguments is abstracted as a parameter.
-/

set_option autoImplicit false

/-- Python exceptions raised by the embedded code. -/
inductive PyErr where
  | assertionError
  | notImplementedError
  | nameError
  | shapeError
  | zeroDivisionError
  deriving DecidableEq, Repr

/-- A floating point scalar: finite (exact rational), +Inf, -Inf, or NaN. -/
inductive Flt where
  | fin (q : ℚ)
  | inf
  | ninf
  | nan
  deriving DecidableEq, Repr

/-- IEEE negation. -/
def fltNeg : Flt → Flt
  | .fin q => .fin (-q)
  | .inf => .ninf
  | .ninf => .inf
  | .nan => .nan

/-- IEEE strict less-than: every comparison against NaN is false. -/
def fltLt : Flt → Flt → Bool
  | .nan, _ => false
  | _, .nan => false
  | .ninf, .ninf => false
  | .ninf, _ => true
  | _, .ninf => false
  | .inf, _ => false
  | .fin _, .inf => true
  | .fin a, .fin b => decide (a < b)

/-- pyro.util.torch_isnan restricted to scalars: true exactly on NaN
(Modelled from the spec: the helper body lives outside src/; its name and
the source comment in HMC.sample, "handle the NaN case", fix it as a
NaN-only test). -/
def torch_isnan : Flt → Bool
  | .nan => true
  | _ => false

/-- hmc.py line 311: replace delta_energy by +Inf when it is NaN. -/
def guardDelta (d : Flt) : Flt :=
  if torch_isnan d then Flt.inf else d

/-- hmc.py line 315: accept_prob = (-delta_energy).exp().clamp(max=1.).
exp on finite arguments is abstracted by the parameter expFn. -/
def acceptProbOf (expFn : ℚ → ℚ) (d : Flt) : Flt :=
  match fltNeg d with
  | .nan => .nan
  | .inf => .fin 1
  | .ninf => .fin 0
  | .fin q => .fin (min (expFn q) 1)

/-- The mutable counters of one HMC kernel instance (hmc.py _reset):
iteration count _t, _accept_cnt, _num_diverging, and _warmup_steps. -/
structure HMCState where
  t : ℕ
  acceptCnt : ℕ
  numDiverging : ℕ
  warmupSteps : ℕ
  deriving DecidableEq, Repr

/-- State after HMC._reset: all counters zero. -/
def resetState : HMCState := ⟨0, 0, 0, 0⟩

/-- The per-call data that determines one HMC.sample transition:
the raw delta_energy produced by the leapfrog proposal, the uniform
variate of the Metropolis test, and whether the early branch for an
empty parameter dict (len(z) == 0) is taken. -/
structure SampleObs where
  deltaRaw : Flt
  rand : ℚ
  emptyZ : Bool
  deriving DecidableEq, Repr

/-- hmc.py HMC.sample, lines 283-328, as a transition on the kernel
counters.  The integrator and momentum draw are summarized by the
observation o; the warm-up adapter update touches no counter and is
omitted. -/
def sampleStep (expFn : ℚ → ℚ) (o : SampleObs) (st : HMCState) : HMCState :=
  if o.emptyZ then
    { st with acceptCnt := st.acceptCnt + 1, t := st.t + 1 }
  else
    let d := guardDelta o.deltaRaw
    let ndiv :=
      if fltLt (Flt.fin 1000) d && decide (st.warmupSteps ≤ st.t)
      then st.numDiverging + 1 else st.numDiverging
    let ap := acceptProbOf expFn d
    let accepted := fltLt (Flt.fin o.rand) ap
    { st with
        numDiverging := ndiv,
        acceptCnt := if accepted then st.acceptCnt + 1 else st.acceptCnt,
        t := st.t + 1 }

/-- A call on the kernel: setup(warmup_steps, ...) or sample(params). -/
inductive HMCCall where
  | setup (warmup : ℕ)
  | sample (o : SampleObs)

/-- Effect of one kernel call on the counters.  setup stores the warm-up
step count and touches no counter (hmc.py lines 258-265). -/
def hmcStep (expFn : ℚ → ℚ) (st : HMCState) : HMCCall → HMCState
  | .setup w => { st with warmupSteps := w }
  | .sample o => sampleStep expFn o st

/-- Run a sequence of kernel calls from the freshly reset state. -/
def hmcRun (expFn : ℚ → ℚ) (calls : List HMCCall) : HMCState :=
  calls.foldl (hmcStep expFn) resetState

/-- hmc.py HMC.diagnostics, lines 330-335: reads the counters and divides
_accept_cnt by _t with no guard; Python raises ZeroDivisionError when
_t = 0.  (The step-size string read from the adapter involves no kernel
counter and is omitted.) -/
def diagnosticsS (st : HMCState) : Except PyErr (ℚ × ℕ) :=
  if st.t = 0 then .error .zeroDivisionError
  else .ok ((st.acceptCnt : ℚ) / (st.t : ℚ), st.numDiverging)

/-- hmc.py lines 169-190: the direction statistic of the step-size
search at momentum draw t and step size s, where deltaE abstracts the
one-step leapfrog energy difference and log08 the threshold log(0.8):
direction = 1 if threshold < -delta_energy else -1. -/
def dirE (log08 : ℚ) (deltaE : ℕ → ℚ → Flt) (t : ℕ) (s : ℚ) : Int :=
  if fltLt (Flt.fin log08) (fltNeg (deltaE t s)) then 1 else -1

/-- hmc.py line 176: step_size_scale = 2 ** direction. -/
def stepScale (d : Int) : ℚ :=
  if d = 1 then 2 else 1/2

/-- The while loop of _find_reasonable_step_size (hmc.py lines 180-191),
with explicit fuel: scale the step size, recompute the direction with a
fresh momentum index, stop when the direction flips. -/
def findLoop (dir : ℕ → ℚ → Int) (d0 : Int) (scale : ℚ) :
    ℕ → ℚ → ℕ → Option ℚ
  | 0, _, _ => none
  | fuel + 1, s, t =>
    let t' := t + 1
    let s' := scale * s
    if dir t' s' = d0 then findLoop dir d0 scale fuel s' t' else some s'

/-- hmc.py HMC._find_reasonable_step_size, lines 156-191: compute the
initial direction at the current step size, then double (direction 1) or
halve (direction -1) until the direction statistic flips. -/
def findReasonableStepSize (log08 : ℚ) (deltaE : ℕ → ℚ → Flt) (s0 : ℚ)
    (fuel : ℕ) : Option ℚ :=
  let d0 := dirE log08 deltaE 0 s0
  findLoop (dirE log08 deltaE) d0 (stepScale d0) fuel s0 0

/-- Decidable equality for embedded fallible results. -/
instance instDecEqExcept {ε α : Type} [DecidableEq ε] [DecidableEq α] :
    DecidableEq (Except ε α)
  | .error a, .error b =>
    match decEq a b with
    | isTrue h => isTrue (by rw [h])
    | isFalse h => isFalse (by intro hc; cases hc; exact h rfl)
  | .error _, .ok _ => isFalse (by intro hc; cases hc)
  | .ok _, .error _ => isFalse (by intro hc; cases hc)
  | .ok a, .ok b =>
    match decEq a b with
    | isTrue h => isTrue (by rw [h])
    | isFalse h => isFalse (by intro hc; cases hc; exact h rfl)

/-- Dot product of two rational vectors. -/
def dotQ (a b : List ℚ) : ℚ :=
  (List.zipWith (· * ·) a b).sum

/-- Column count of a (rectangular) matrix, i.e. shape[-1]. -/
def tensorCols (S : List (List ℚ)) : ℕ :=
  (S.headD []).length

/-- Vector-matrix product v.matmul(S) for v of length n and S of shape
(n, k): the sum of the rows of S scaled by the entries of v. -/
def vecMatMul (v : List ℚ) (S : List (List ℚ)) : List ℚ :=
  (List.zipWith (fun c row => row.map (fun x => c * x)) v S).foldl
    (fun acc r => List.zipWith (· + ·) acc r)
    (List.replicate (tensorCols S) 0)

/-- Matrix-vector product S.matmul(v). -/
def matVecMul (S : List (List ℚ)) (v : List ℚ) : List ℚ :=
  S.map (fun row => dotQ row v)

/-- S @ S.T, the precision represented by a square-root factor S. -/
def outerSelf (S : List (List ℚ)) : List (List ℚ) :=
  S.map (fun ri => S.map (fun rj => dotQ ri rj))

/-- gaussian_sqrt.py GaussianS: log_normalizer, info_vec and the
square-root precision factor prec_sqrt (rows indexed by event dims). -/
structure GaussianS where
  log_normalizer : ℚ
  info_vec : List ℚ
  prec_sqrt : List (List ℚ)
  deriving DecidableEq, Repr

/-- gaussian_sqrt.py line 44: dim() = info_vec.size(-1). -/
def GaussianS.dim (g : GaussianS) : ℕ :=
  g.info_vec.length

/-- GaussianS.__init__ (gaussian_sqrt.py lines 34-41): the assert
prec_sqrt.shape[-2:] == info_vec.shape[-1:] * 2 demands a square
(n, n) factor; AssertionError otherwise. -/
def GaussianS.make (c : ℚ) (u : List ℚ) (S : List (List ℚ)) :
    Except PyErr GaussianS :=
  if S.length = u.length ∧ tensorCols S = u.length then .ok ⟨c, u, S⟩
  else .error .assertionError

/-- GaussianS.log_density (gaussian_sqrt.py lines 122-137), line by line:
w = value.matmul(prec_sqrt); q = (-0.5) * w.pow(2).sum(-1) is a scalar;
the line result = result + info_vec then broadcasts that scalar over the
info vector; finally (value * result).sum(-1) + log_normalizer. -/
def GaussianS.log_density (g : GaussianS) (v : List ℚ) : Except PyErr ℚ :=
  if v.length = 0 then .ok g.log_normalizer
  else if v.length ≠ g.prec_sqrt.length then .error .shapeError
  else
    let w := vecMatMul v g.prec_sqrt
    let q := (-1/2) * (w.map (fun x => x ^ 2)).sum
    let r := g.info_vec.map (fun ui => q + ui)
    .ok ((List.zipWith (· * ·) v r).sum + g.log_normalizer)

/-- The formula stated by the log_density docstring and by the spec:
-0.5 * value.T @ precision @ value + value.T @ info_vec + log_normalizer
(this is the specification side, for comparison with the code). -/
def GaussianS.logDensityFormula (g : GaussianS) (v : List ℚ) : ℚ :=
  (-1/2) * dotQ v (matVecMul (outerSelf g.prec_sqrt) v)
    + dotQ v g.info_vec + g.log_normalizer

/-- GaussianS.__add__ (gaussian_sqrt.py lines 112-120): after the equal
dim() assert, the factors are padded on the column dimension -
pad(self.prec_sqrt, (0, other.dim())) and pad(other.prec_sqrt,
(self.dim(), 0)) - and added, then the constructor checks run. -/
def GaussianS.add (g1 g2 : GaussianS) : Except PyErr GaussianS :=
  if g1.dim ≠ g2.dim then .error .assertionError
  else
    let S1 := g1.prec_sqrt.map (fun r => r ++ List.replicate g2.dim 0)
    let S2 := g2.prec_sqrt.map (fun r => List.replicate g1.dim 0 ++ r)
    GaussianS.make (g1.log_normalizer + g2.log_normalizer)
      (List.zipWith (· + ·) g1.info_vec g2.info_vec)
      (List.zipWith (fun a b => List.zipWith (· + ·) a b) S1 S2)

/-- GaussianS.event_pad (gaussian_sqrt.py lines 91-99): info_vec is
padded by (left, right); prec_sqrt is padded with lr + (0, 0), which in
torch pads the last (column) dimension by (left, right) and the row
dimension not at all; then the constructor checks run. -/
def GaussianS.event_pad (g : GaussianS) (left right : ℕ) :
    Except PyErr GaussianS :=
  GaussianS.make g.log_normalizer
    (List.replicate left 0 ++ g.info_vec ++ List.replicate right 0)
    (g.prec_sqrt.map (fun r =>
      List.replicate left 0 ++ r ++ List.replicate right 0))

/-- GaussianS.event_permute (gaussian_sqrt.py lines 101-110): the body
starts with raise NotImplementedError, so every call fails. -/
def GaussianS.event_permute (_g : GaussianS) (_perm : List ℕ) :
    Except PyErr GaussianS :=
  .error .notImplementedError

/-- GaussianS.condition (gaussian_sqrt.py lines 139-170): split the event
dims at n = dim() - value.size(-1), fold the observed block into
info_vec and log_normalizer, keep prec_sqrt rows [..., :n, :], and run
the constructor checks. -/
def GaussianS.condition (g : GaussianS) (value : List ℚ) :
    Except PyErr GaussianS :=
  if g.info_vec.length < value.length then .error .assertionError
  else
    let n := g.dim - value.length
    let info_a := g.info_vec.take n
    let info_b := g.info_vec.drop n
    let Psqrt_a := g.prec_sqrt.take n
    let Psqrt_b := g.prec_sqrt.drop n
    let Psqrt_b_b := vecMatMul value Psqrt_b
    let info_vec := List.zipWith (· - ·) info_a (matVecMul Psqrt_a Psqrt_b_b)
    let log_normalizer := g.log_normalizer
      + (-1/2) * (Psqrt_b_b.map (fun x => x ^ 2)).sum
      + dotQ value info_b
    GaussianS.make log_normalizer info_vec Psqrt_a

/-- gaussian_tensordotS (gaussian_sqrt.py lines 339-367): pad both inputs
to the common event space, add, permute the shared block to the end,
marginalize it out.  The marginalization step (which involves a QR
factorization) is taken as a parameter marg; the result is independent
of it because the pipeline fails before marg can run. -/
def gaussian_tensordotS
    (marg : GaussianS → ℕ → ℕ → Except PyErr GaussianS)
    (x y : GaussianS) (dims : ℕ) : Except PyErr GaussianS :=
  if x.dim < dims ∨ y.dim < dims then .error .assertionError
  else
    let na := x.dim - dims
    let nb := dims
    let nc := y.dim - dims
    let perm := List.range na
      ++ (List.range nc).map (fun i => i + x.dim)
      ++ (List.range (x.dim - na)).map (fun i => i + na)
    do
      let xp ← x.event_pad 0 nc
      let yp ← y.event_pad na 0
      let s ← GaussianS.add xp yp
      let p ← s.event_permute perm
      marg p 0 nb

/-- studentt.py StudentT: log_normalizer, info_vec, the (full, not
square-root) precision, degrees of freedom df and rank. -/
structure StudentT where
  log_normalizer : ℚ
  info_vec : List ℚ
  precision : List (List ℚ)
  df : ℚ
  rank : ℚ
  deriving DecidableEq, Repr

/-- studentt.py line 60: dim() = info_vec.size(-1). -/
def StudentT.dim (st : StudentT) : ℕ :=
  st.info_vec.length

/-- StudentT.condition (studentt.py lines 169-203): after the size
assert it computes the conditioned info_vec, precision P_aa,
df + value.size(-1) and rank - value.size(-1), and then executes
return GammaGaussian(...) - but the name GammaGaussian is not defined
anywhere in studentt.py (only Gamma is imported), so Python raises
NameError before any object is returned. -/
def StudentT.condition (g : StudentT) (value : List ℚ) :
    Except PyErr StudentT :=
  if g.info_vec.length < value.length then .error .assertionError
  else
    let n := g.dim - value.length
    let info_a := g.info_vec.take n
    let P_ab := (g.precision.take n).map (fun row => row.drop n)
    let _info_vec := List.zipWith (· - ·) info_a (matVecMul P_ab value)
    let _precision := (g.precision.take n).map (fun row => row.take n)
    let _df := g.df + (value.length : ℚ)
    let _rank := g.rank - (value.length : ℚ)
    .error .nameError

/-- Unfolding of sampleStep on the non-empty-parameter branch. -/
lemma sampleStep_eq (expFn : ℚ → ℚ) (o : SampleObs) (st : HMCState)
    (hz : o.emptyZ = false) :
    sampleStep expFn o st =
      { st with
          numDiverging :=
            if fltLt (Flt.fin 1000) (guardDelta o.deltaRaw)
                && decide (st.warmupSteps ≤ st.t)
            then st.numDiverging + 1 else st.numDiverging,
          acceptCnt :=
            if fltLt (Flt.fin o.rand) (acceptProbOf expFn (guardDelta o.deltaRaw))
            then st.acceptCnt + 1 else st.acceptCnt,
          t := st.t + 1 } := by
  simp [sampleStep, hz]

/-- Each sample call advances t by one and the accept count by zero or one. -/
lemma sampleStep_counters (expFn : ℚ → ℚ) (o : SampleObs) (st : HMCState) :
    (sampleStep expFn o st).t = st.t + 1 ∧
    ((sampleStep expFn o st).acceptCnt = st.acceptCnt ∨
     (sampleStep expFn o st).acceptCnt = st.acceptCnt + 1) := by
  by_cases hz : o.emptyZ
  · simp [sampleStep, hz]
  · rw [sampleStep_eq expFn o st (by simpa using hz)]
    refine ⟨rfl, ?_⟩
    by_cases ha : fltLt (Flt.fin o.rand) (acceptProbOf expFn (guardDelta o.deltaRaw)) <;>
      simp [ha]

/-- Any kernel call preserves acceptCnt ≤ t. -/
lemma hmcStep_inv (expFn : ℚ → ℚ) (st : HMCState) (c : HMCCall)
    (h : st.acceptCnt ≤ st.t) :
    (hmcStep expFn st c).acceptCnt ≤ (hmcStep expFn st c).t := by
  cases c with
  | setup w => simpa [hmcStep] using h
  | sample o =>
    obtain ⟨ht, hc⟩ := sampleStep_counters expFn o st
    simp only [hmcStep]
    rcases hc with hc | hc <;> omega

/-- The invariant acceptCnt ≤ t is preserved by any sequence of calls. -/
lemma hmcFold_inv (expFn : ℚ → ℚ) :
    ∀ (calls : List HMCCall) (st : HMCState), st.acceptCnt ≤ st.t →
      (calls.foldl (hmcStep expFn) st).acceptCnt ≤
      (calls.foldl (hmcStep expFn) st).t := by
  intro calls
  induction calls with
  | nil => intro st h; simpa using h
  | cons c rest ih =>
    intro st h
    simpa using ih (hmcStep expFn st c) (hmcStep_inv expFn st c h)

/-- The step-size search loop: if the direction statistic flips within the
fuel budget, the loop returns some strictly positive step size. -/
lemma findLoop_terminates (dir : ℕ → ℚ → Int) (d0 : Int) (scale : ℚ)
    (hscale : 0 < scale) :
    ∀ (fuel : ℕ) (s : ℚ) (t : ℕ), 0 < s →
      (∃ k, 1 ≤ k ∧ k ≤ fuel ∧ dir (t + k) (s * scale ^ k) ≠ d0) →
      ∃ s', findLoop dir d0 scale fuel s t = some s' ∧ 0 < s' := by
  intro fuel
  induction fuel with
  | zero =>
    rintro s t hs ⟨k, hk1, hk0, -⟩
    omega
  | succ n ih =>
    rintro s t hs ⟨k, hk1, hkle, hflip⟩
    by_cases hd : dir (t + 1) (scale * s) = d0
    · rw [show findLoop dir d0 scale (n + 1) s t
            = findLoop dir d0 scale n (scale * s) (t + 1) by
          simp [findLoop, hd]]
      apply ih (scale * s) (t + 1) (by positivity)
      obtain ⟨m, rfl⟩ : ∃ m, k = m + 1 := ⟨k - 1, by omega⟩
      have hm : 1 ≤ m := by
        rcases Nat.eq_zero_or_pos m with hm0 | hm0
        · subst hm0
          exact absurd (by simpa [mul_comm] using hd) hflip
        · exact hm0
      refine ⟨m, hm, by omega, ?_⟩
      have harg : scale * s * scale ^ m = s * scale ^ (m + 1) := by ring
      have hidx : t + 1 + m = t + (m + 1) := by omega
      rw [harg, hidx]
      exact hflip
    · exact ⟨scale * s, by simp [findLoop, hd], by positivity⟩

/-- C1: code_bug evaluation.  At the one-dimensional Gaussian with
log_normalizer 0, info_vec [0], prec_sqrt [[1]] and value [2], the code
of GaussianS.log_density returns -4, while the formula stated by its own
docstring and the claim, -1/2 vPv + v.info_vec + log_normalizer, gives
-2: the code sums the quadratic form to a scalar before adding info_vec,
so the scalar is broadcast and multiplied by the sum of the value
entries. -/
theorem c1_log_density_code_vs_docstring :
    GaussianS.log_density ⟨0, [0], [[1]]⟩ [2] = .ok (-4) ∧
    GaussianS.logDensityFormula ⟨0, [0], [[1]]⟩ [2] = -2 ∧
    (-4 : ℚ) ≠ -2 := by
  refine ⟨?_, ?_, by norm_num⟩
  · simp [GaussianS.log_density, vecMatMul, tensorCols, dotQ]
    norm_num
  · simp [GaussianS.logDensityFormula, outerSelf, matVecMul, dotQ]
    norm_num

/-- C2: code_bug evaluation.  Adding two one-dimensional Gaussians
raises AssertionError: GaussianS.__add__ builds the (correct) block
concatenation of the two factors, of shape (1, 2), but the constructor
of GaussianS asserts a square (n, n) factor, so the claimed additivity
identity never gets to hold for dim() >= 1. -/
theorem c2_add_raises_assertion :
    GaussianS.add ⟨0, [0], [[1]]⟩ ⟨0, [0], [[1]]⟩ = .error .assertionError := by
  rfl

/-- C3: code_bug evaluation.  gaussian_tensordotS on two one-dimensional
Gaussians with dims = 1 raises before any marginalization can happen
(here the add step fails the constructor assert; even on inputs that get
past the shape asserts, event_permute raises NotImplementedError), for
every possible marginalization routine marg. -/
theorem c3_tensordot_raises (marg : GaussianS → ℕ → ℕ → Except PyErr GaussianS) :
    gaussian_tensordotS marg ⟨0, [0], [[1]]⟩ ⟨0, [0], [[1]]⟩ 1 =
      .error .assertionError := by
  rfl

/-- C3 witness: the evaluation at a concrete marginalization routine. -/
theorem c3_tensordot_raises_witness :
    gaussian_tensordotS (fun g _ _ => .ok g) ⟨0, [0], [[1]]⟩ ⟨0, [0], [[1]]⟩ 1 =
      .error .assertionError :=
  c3_tensordot_raises (fun g _ _ => .ok g)

/-- C4: code_bug evaluation.  For the two-dimensional standard Gaussian,
conditioning on the trailing coordinate raises AssertionError (the kept
factor has shape (1, 2), the constructor wants (1, 1)), while
log_density on the full value is defined; so the round-trip identity
g.condition(x[1:]).log_density(x[:1]) == g.log_density(x) promised by
the docstring of condition fails for every split with k < dim(). -/
theorem c4_condition_raises_assertion :
    GaussianS.condition ⟨0, [0, 0], [[1, 0], [0, 1]]⟩ [1] =
      .error .assertionError ∧
    GaussianS.log_density ⟨0, [0, 0], [[1, 0], [0, 1]]⟩ [1, 1] = .ok (-2) := by
  refine ⟨rfl, ?_⟩
  simp [GaussianS.log_density, vecMatMul, tensorCols, dotQ]
  norm_num

/-- C5: code_bug evaluation.  StudentT.condition on a one-dimensional
Student-t potential with df = 3, rank = 1 and observation [1] raises
NameError: the method computes the conditioned parameters (including
df + 1 and rank - 1 as the claim states) but then executes
return GammaGaussian(...), and GammaGaussian is not defined in
studentt.py. -/
theorem c5_studentt_condition_raises_name_error :
    StudentT.condition ⟨0, [0], [[1]], 3, 1⟩ [1] = .error .nameError := by
  rfl

/-- C6 counterexample: delta_energy = -Inf is non-finite, yet the guard
in HMC.sample leaves it unchanged (torch_isnan is false on -Inf) and the
Metropolis test then accepts the proposal with probability one - the
claim says every non-finite delta_energy is replaced by +Inf and the
proposal deterministically rejected. -/
theorem c6_counterexample_neg_inf_not_replaced :
    guardDelta Flt.ninf = Flt.ninf ∧
    guardDelta Flt.ninf ≠ Flt.inf ∧
    (sampleStep (fun _ => 0) ⟨Flt.ninf, 1/2, false⟩ ⟨0, 0, 0, 0⟩).acceptCnt
      = 0 + 1 := by
  refine ⟨rfl, by decide, ?_⟩
  simp [sampleStep, guardDelta, torch_isnan, acceptProbOf, fltNeg, fltLt]
  norm_num

/-- C6 (amended): in HMC.sample the computed delta_energy is replaced by
+Inf exactly when it is NaN, and a NaN or +Inf delta_energy leads to
deterministic rejection, while -Inf is left unchanged and leads to
deterministic acceptance; no error is raised (the embedded transition is
total). -/
theorem c6_nan_guard (expFn : ℚ → ℚ) (st : HMCState) (o : SampleObs)
    (hz : o.emptyZ = false) (h0 : 0 ≤ o.rand) (h1 : o.rand < 1) :
    (o.deltaRaw ≠ Flt.nan → guardDelta o.deltaRaw = o.deltaRaw) ∧
    (o.deltaRaw = Flt.nan → guardDelta o.deltaRaw = Flt.inf) ∧
    ((o.deltaRaw = Flt.nan ∨ o.deltaRaw = Flt.inf) →
      (sampleStep expFn o st).acceptCnt = st.acceptCnt) ∧
    (o.deltaRaw = Flt.ninf →
      (sampleStep expFn o st).acceptCnt = st.acceptCnt + 1) := by
  refine ⟨?_, ?_, ?_, ?_⟩
  · intro h
    cases hd : o.deltaRaw with
    | fin q => rfl
    | inf => rfl
    | ninf => rfl
    | nan => exact absurd hd h
  · intro h
    rw [h]
    rfl
  · intro h
    have hap : acceptProbOf expFn (guardDelta o.deltaRaw) = Flt.fin 0 := by
      rcases h with h | h <;> rw [h] <;> rfl
    rw [sampleStep_eq expFn o st hz]
    simp [hap, fltLt, decide_eq_false (not_lt.mpr h0)]
  · intro h
    have hap : acceptProbOf expFn (guardDelta o.deltaRaw) = Flt.fin 1 := by
      rw [h]
      rfl
    rw [sampleStep_eq expFn o st hz]
    simp [hap, fltLt, decide_eq_true h1]

/-- C6 witness: the amended statement at concrete inputs. -/
theorem c6_nan_guard_witness :
    guardDelta (Flt.fin 7) = Flt.fin 7 ∧
    guardDelta Flt.nan = Flt.inf ∧
    (sampleStep (fun _ => 0) ⟨Flt.nan, 1/2, false⟩ ⟨0, 0, 0, 0⟩).acceptCnt = 0 ∧
    (sampleStep (fun _ => 0) ⟨Flt.ninf, 1/2, false⟩ ⟨0, 0, 0, 0⟩).acceptCnt
      = 0 + 1 := by
  have h := c6_nan_guard (fun _ => 0) ⟨0, 0, 0, 0⟩ ⟨Flt.nan, 1/2, false⟩
    rfl (by norm_num) (by norm_num)
  have h' := c6_nan_guard (fun _ => 0) ⟨0, 0, 0, 0⟩ ⟨Flt.ninf, 1/2, false⟩
    rfl (by norm_num) (by norm_num)
  exact ⟨c6_nan_guard (fun _ => 0) ⟨0, 0, 0, 0⟩ ⟨Flt.fin 7, 1/2, false⟩
      rfl (by norm_num) (by norm_num) |>.1 (by decide),
    h.2.1 rfl, h.2.2.1 (Or.inl rfl), h'.2.2.2 rfl⟩

/-- C7: when the potential yields NaN so that delta_energy is NaN, the
embedded HMC.sample transition is a total function (no exception is
modelled or needed on this path): the step advances t by one, rejects
the proposal (accept count unchanged, since the guarded delta is +Inf
and the acceptance probability is 0), and increments the divergence
counter exactly when warm-up has finished - the guarded delta +Inf
always exceeds the 1000 threshold. -/
theorem c7_nan_trajectory_rejected (expFn : ℚ → ℚ) (st : HMCState)
    (o : SampleObs) (hz : o.emptyZ = false) (hn : o.deltaRaw = Flt.nan)
    (h0 : 0 ≤ o.rand) :
    (sampleStep expFn o st).t = st.t + 1 ∧
    (sampleStep expFn o st).acceptCnt = st.acceptCnt ∧
    (sampleStep expFn o st).numDiverging =
      st.numDiverging + (if st.warmupSteps ≤ st.t then 1 else 0) := by
  rw [sampleStep_eq expFn o st hz]
  have hg : guardDelta o.deltaRaw = Flt.inf := by rw [hn]; rfl
  refine ⟨rfl, ?_, ?_⟩
  · simp [hg, acceptProbOf, fltNeg, fltLt, decide_eq_false (not_lt.mpr h0)]
  · simp only [hg]
    by_cases hw : st.warmupSteps ≤ st.t <;>
      simp [fltLt, hw]

/-- C7 witness: a NaN delta at concrete pre- and post-warm-up states. -/
theorem c7_nan_trajectory_rejected_witness :
    (sampleStep (fun _ => 0) ⟨Flt.nan, 1/2, false⟩ ⟨5, 2, 0, 3⟩).t = 5 + 1 ∧
    (sampleStep (fun _ => 0) ⟨Flt.nan, 1/2, false⟩ ⟨5, 2, 0, 3⟩).acceptCnt = 2 ∧
    (sampleStep (fun _ => 0) ⟨Flt.nan, 1/2, false⟩ ⟨5, 2, 0, 3⟩).numDiverging
      = 0 + 1 := by
  have h := c7_nan_trajectory_rejected (fun _ => 0) ⟨5, 2, 0, 3⟩
    ⟨Flt.nan, 1/2, false⟩ rfl rfl (by norm_num)
  exact ⟨h.1, h.2.1, by rw [h.2.2]; norm_num⟩

/-- C8: the step-size search of HMC._find_reasonable_step_size keeps
doubling or halving the step size, and for every well-posed energy
profile - formalized as: the direction statistic flips after some
number m of scalings - it terminates (the loop, run with fuel m,
returns) with a strictly positive step size. -/
theorem c8_step_size_search_terminates (log08 : ℚ) (deltaE : ℕ → ℚ → Flt)
    (s0 : ℚ) (m : ℕ) (hs0 : 0 < s0) (hm : 1 ≤ m)
    (hflip : dirE log08 deltaE m
        (s0 * (stepScale (dirE log08 deltaE 0 s0)) ^ m)
      ≠ dirE log08 deltaE 0 s0) :
    ∃ s, findReasonableStepSize log08 deltaE s0 m = some s ∧ 0 < s := by
  have hscale : 0 < stepScale (dirE log08 deltaE 0 s0) := by
    unfold stepScale
    split <;> norm_num
  exact findLoop_terminates (dirE log08 deltaE) (dirE log08 deltaE 0 s0)
    (stepScale (dirE log08 deltaE 0 s0)) hscale m s0 0 hs0
    ⟨m, hm, le_refl m, by simpa using hflip⟩

/-- C8 witness: for the energy profile delta(s) = s and threshold
-223/1000, starting from step size 1 the direction is -1 (halve) and it
flips after 3 halvings, so the search returns the positive step 1/8. -/
theorem c8_step_size_search_terminates_witness :
    ∃ s, findReasonableStepSize (-223/1000) (fun _ s => Flt.fin s) 1 3
      = some s ∧ 0 < s :=
  c8_step_size_search_terminates (-223/1000) (fun _ s => Flt.fin s) 1 3
    (by norm_num) (by norm_num) (by norm_num [dirE, fltNeg, fltLt, stepScale])

/-- C9: after any sequence of setup and sample calls from a reset
kernel, 0 ≤ acceptCnt ≤ t; whenever at least one sample completed
(t ≥ 1) the empirical acceptance rate acceptCnt / t lies in [0, 1];
and every single sample call advances t by exactly one and the accept
count by zero or one. -/
theorem c9_accept_count_bound (expFn : ℚ → ℚ) (calls : List HMCCall) :
    (hmcRun expFn calls).acceptCnt ≤ (hmcRun expFn calls).t ∧
    (0 < (hmcRun expFn calls).t →
      0 ≤ ((hmcRun expFn calls).acceptCnt : ℚ) / ((hmcRun expFn calls).t : ℚ) ∧
      ((hmcRun expFn calls).acceptCnt : ℚ) / ((hmcRun expFn calls).t : ℚ) ≤ 1) ∧
    ∀ (o : SampleObs) (st : HMCState),
      (sampleStep expFn o st).t = st.t + 1 ∧
      ((sampleStep expFn o st).acceptCnt = st.acceptCnt ∨
       (sampleStep expFn o st).acceptCnt = st.acceptCnt + 1) := by
  have hinv : (hmcRun expFn calls).acceptCnt ≤ (hmcRun expFn calls).t :=
    hmcFold_inv expFn calls resetState (le_refl 0)
  refine ⟨hinv, ?_, fun o st => sampleStep_counters expFn o st⟩
  intro ht
  constructor
  · positivity
  · rw [div_le_one (by exact_mod_cast ht)]
    exact_mod_cast hinv

/-- C9 witness: a concrete run of one setup and two sample calls. -/
theorem c9_accept_count_bound_witness :
    (hmcRun (fun _ => 0)
        [HMCCall.setup 1, HMCCall.sample ⟨Flt.nan, 1/2, false⟩,
         HMCCall.sample ⟨Flt.ninf, 1/2, false⟩]).acceptCnt ≤
      (hmcRun (fun _ => 0)
        [HMCCall.setup 1, HMCCall.sample ⟨Flt.nan, 1/2, false⟩,
         HMCCall.sample ⟨Flt.ninf, 1/2, false⟩]).t ∧
    0 ≤ ((hmcRun (fun _ => 0)
        [HMCCall.setup 1, HMCCall.sample ⟨Flt.nan, 1/2, false⟩,
         HMCCall.sample ⟨Flt.ninf, 1/2, false⟩]).acceptCnt : ℚ) /
      ((hmcRun (fun _ => 0)
        [HMCCall.setup 1, HMCCall.sample ⟨Flt.nan, 1/2, false⟩,
         HMCCall.sample ⟨Flt.ninf, 1/2, false⟩]).t : ℚ) ∧
    ((hmcRun (fun _ => 0)
        [HMCCall.setup 1, HMCCall.sample ⟨Flt.nan, 1/2, false⟩,
         HMCCall.sample ⟨Flt.ninf, 1/2, false⟩]).acceptCnt : ℚ) /
      ((hmcRun (fun _ => 0)
        [HMCCall.setup 1, HMCCall.sample ⟨Flt.nan, 1/2, false⟩,
         HMCCall.sample ⟨Flt.ninf, 1/2, false⟩]).t : ℚ) ≤ 1 := by
  have h := c9_accept_count_bound (fun _ => 0)
    [HMCCall.setup 1, HMCCall.sample ⟨Flt.nan, 1/2, false⟩,
     HMCCall.sample ⟨Flt.ninf, 1/2, false⟩]
  have ht : 0 < (hmcRun (fun _ => 0)
      [HMCCall.setup 1, HMCCall.sample ⟨Flt.nan, 1/2, false⟩,
       HMCCall.sample ⟨Flt.ninf, 1/2, false⟩]).t := by
    simp [hmcRun, hmcStep, resetState, sampleStep]
  exact ⟨h.1, (h.2.1 ht).1, (h.2.1 ht).2⟩

/-- C10: HMC.diagnostics divides the accept count by the iteration
count with no guard, so on a kernel where no sample call has completed
(t = 0) it raises ZeroDivisionError, while for t ≥ 1 it returns the
acceptance rate and divergence count normally; it only reads the
counters (the embedded diagnostics is a pure function of the state). -/
theorem c10_diagnostics_division_by_zero (st : HMCState) :
    (st.t = 0 → diagnosticsS st = .error .zeroDivisionError) ∧
    (0 < st.t → diagnosticsS st =
      .ok ((st.acceptCnt : ℚ) / (st.t : ℚ), st.numDiverging)) := by
  constructor
  · intro h
    simp [diagnosticsS, h]
  · intro h
    have : st.t ≠ 0 := by omega
    simp [diagnosticsS, this]

/-- C10 witness: the reset kernel raises; after two iterations with one
acceptance the call returns normally. -/
theorem c10_diagnostics_division_by_zero_witness :
    diagnosticsS ⟨0, 0, 0, 0⟩ = .error .zeroDivisionError ∧
    diagnosticsS ⟨2, 1, 0, 5⟩ = .ok (((1 : ℕ) : ℚ) / ((2 : ℕ) : ℚ), 0) :=
  ⟨(c10_diagnostics_division_by_zero ⟨0, 0, 0, 0⟩).1 rfl,
   (c10_diagnostics_division_by_zero ⟨2, 1, 0, 5⟩).2 (by norm_num)⟩
